import Mathlib

set_option autoImplicit false

/-!
Verification of the CanSat terrain-classification and orientation firmware.

The definitions below are a shallow embedding of the two firmware variants:
`cansat_arduino/terrain_scanner/terrain_scanner.ino` (5 ultrasonic channels,
called the "scanner" variant here) and
`cansat_arduino/cansat_mega/cansat_mega.ino` (6 channels, the "mega" variant).
Distances are modelled as exact rationals (`ℚ`), echo durations as natural
numbers of microseconds, and the orientation math (`atan2`) over the reals via
`Complex.arg`.
-/

/-- The five terrain classification outcomes named by the firmware's
`terrainStatus` strings: `"FLAT-SAFE"`, `"UNEVEN"`, `"HAZARD!"`,
`"NO_GROUND"` / `"NO GROUND"`, `"NO_DATA"`. -/
inductive TerrainStatus where
  | FLAT_SAFE
  | UNEVEN
  | HAZARD
  | NO_GROUND
  | NO_DATA
deriving DecidableEq

open TerrainStatus

/-- `NUM_SENSORS` in `terrain_scanner.ino`. -/
def NUM_SENSORS_scanner : ℕ := 5

/-- `NUM_SENSORS` in `cansat_mega.ino`. -/
def NUM_SENSORS_mega : ℕ := 6

/-- `readSingleUltrasonic` (identical in both variants): `pulseIn` returns the
echo duration in microseconds, or `0` on timeout.  On `duration == 0` the
function returns the sentinel `-1`; otherwise `duration * 0.0343 / 2.0`
centimeters (`0.0343 = 343/10000` exactly). -/
def readSingleUltrasonic (duration : ℕ) : ℚ :=
  if duration = 0 then -1
  else (duration : ℚ) * (343 / 10000) / 2

/-- The accumulator state of the `readTerrainArray` loop (identical in both
variants): `sum`, `sumSq`, `validCount`, `minDist`, `maxDist`. -/
structure TerrainStats where
  sum : ℚ
  sumSq : ℚ
  validCount : ℕ
  minDist : ℚ
  maxDist : ℚ
deriving DecidableEq

/-- The loop's initial accumulators: `sum = 0`, `sumSq = 0`, `validCount = 0`,
`minDist = 9999`, `maxDist = 0`. -/
def initialStats : TerrainStats :=
  { sum := 0, sumSq := 0, validCount := 0, minDist := 9999, maxDist := 0 }

/-- The body of the `if (dist > 0)` block in `readTerrainArray`: accumulate
`sum`, `sumSq`, `validCount`, and update `minDist` / `maxDist` by the source's
comparisons `if (dist < minDist)` / `if (dist > maxDist)`. -/
def statUpdate (s : TerrainStats) (dist : ℚ) : TerrainStats :=
  { sum := s.sum + dist
    sumSq := s.sumSq + dist * dist
    validCount := s.validCount + 1
    minDist := if dist < s.minDist then dist else s.minDist
    maxDist := if dist > s.maxDist then dist else s.maxDist }

/-- One iteration of the `readTerrainArray` loop: a sample contributes to the
statistics only when `dist > 0`. -/
def stepStats (s : TerrainStats) (dist : ℚ) : TerrainStats :=
  if dist > 0 then statUpdate s dist else s

/-- The accumulators after the `readTerrainArray` loop has consumed the whole
sweep. -/
def sweepStats (samples : List ℚ) : TerrainStats :=
  samples.foldl stepStats initialStats

/-- `terrainMin` as stored by the scanner variant:
`(validCount > 0) ? minDist : 0`. -/
def terrainMin_scanner (samples : List ℚ) : ℚ :=
  if (sweepStats samples).validCount > 0 then (sweepStats samples).minDist else 0

/-- `terrainMax` as stored by the scanner variant:
`(validCount > 0) ? maxDist : 0`. -/
def terrainMax_scanner (samples : List ℚ) : ℚ :=
  if (sweepStats samples).validCount > 0 then (sweepStats samples).maxDist else 0

/-- `terrainVariance` (identical computation in both variants):
`(sumSq / validCount) - mean * mean` when `validCount > 1`, else `0`, with
`mean = sum / validCount`. -/
def terrainVariance (samples : List ℚ) : ℚ :=
  let s := sweepStats samples
  if s.validCount > 1 then
    s.sumSq / (s.validCount : ℚ) -
      (s.sum / (s.validCount : ℚ)) * (s.sum / (s.validCount : ℚ))
  else 0

/-- `analyzeTerrain(validCount)` of the scanner variant, reading the stored
globals `terrainMin` / `terrainMax`; `outOfRange = NUM_SENSORS - validCount`
is C `int` arithmetic, hence `ℤ`. -/
def analyzeTerrain (terrainMin terrainMax : ℚ) (validCount : ℕ) : TerrainStatus :=
  let range := terrainMax - terrainMin
  let outOfRange : ℤ := (NUM_SENSORS_scanner : ℤ) - (validCount : ℤ)
  if outOfRange ≥ 3 then NO_GROUND
  else if range > 50 then HAZARD
  else if range > 20 then UNEVEN
  else if validCount > 0 then FLAT_SAFE
  else NO_DATA

/-- The scanner variant's full sweep pipeline: `readTerrainArray` stores the
guarded min/max and then calls `analyzeTerrain(validCount)`. -/
def classify_scanner (samples : List ℚ) : TerrainStatus :=
  analyzeTerrain (terrainMin_scanner samples) (terrainMax_scanner samples)
    (sweepStats samples).validCount

/-- `analyzeTerrain()` of the mega variant: it recomputes `outOfRange` by
counting entries of the stored `terrain[]` array with `terrain[i] < 0`, reads
`telemetry.terrainMin` / `terrainMax`, and has no `NO_DATA` branch — its final
`else` is `FLAT-SAFE`. -/
def analyzeTerrain_mega (terrain : List ℚ) (terrainMin terrainMax : ℚ) : TerrainStatus :=
  let range := terrainMax - terrainMin
  let outOfRange := (terrain.filter (fun d => d < 0)).length
  if outOfRange ≥ 3 then NO_GROUND
  else if range > 50 then HAZARD
  else if range > 20 then UNEVEN
  else FLAT_SAFE

/-- The mega variant's full sweep pipeline: `readTerrainArray` stores the raw
loop accumulators `minDist` / `maxDist` (unguarded), then calls
`analyzeTerrain()` on the stored sweep. -/
def classify_mega (samples : List ℚ) : TerrainStatus :=
  analyzeTerrain_mega samples (sweepStats samples).minDist (sweepStats samples).maxDist

/-- A complete sweep as produced by the driver: each channel's `pulseIn`
duration mapped through `readSingleUltrasonic`. -/
def sweepSamples (durations : List ℕ) : List ℚ :=
  durations.map readSingleUltrasonic

/-- The valid samples of a sweep, as the spec partitions them: those `> 0`. -/
def validSamples (samples : List ℚ) : List ℚ :=
  samples.filter (fun d => 0 < d)

/-- The spec's invalid-sample count: samples `≤ 0` (the sentinel). -/
def specInvalidCount (samples : List ℚ) : ℕ :=
  (samples.filter (fun d => d ≤ 0)).length

/-- Modelled from the spec's words: the minimum distance among valid samples
(the value is irrelevant when there are none; `0` then). -/
def specMinDist (samples : List ℚ) : ℚ :=
  match validSamples samples with
  | [] => 0
  | h :: t => t.foldl min h

/-- Modelled from the spec's words: the maximum distance among valid samples
(the value is irrelevant when there are none; `0` then). -/
def specMaxDist (samples : List ℚ) : ℚ :=
  match validSamples samples with
  | [] => 0
  | h :: t => t.foldl max h

/-- Modelled from the spec's words (§4.3): the five-rule decision chain in its
stated priority order, over the spec-side statistics. -/
def specClassify (samples : List ℚ) : TerrainStatus :=
  if 3 ≤ specInvalidCount samples then NO_GROUND
  else if 50 < specMaxDist samples - specMinDist samples then HAZARD
  else if 20 < specMaxDist samples - specMinDist samples then UNEVEN
  else if 0 < (validSamples samples).length then FLAT_SAFE
  else NO_DATA

/-! ### Timing model of the `readTerrainArray` loop

Each loop iteration performs, in order: `digitalWrite LOW`,
`delayMicroseconds(2)`, `digitalWrite HIGH`, `delayMicroseconds(10)`,
`digitalWrite LOW` (the trigger pulse, 12 µs), then `pulseIn` blocks for the
echo wait (`echoWait k` µs, bounded by the 30,000 µs timeout in reality), then
`delay(30)` blocks for 30 ms = 30,000 µs of settling.  All of this runs on the
single control thread, so wall-clock time is the sum of the blocking calls. -/

/-- Time (µs from sweep start) at which channel `k`'s trigger pulse begins. -/
def triggerTime (echoWait : ℕ → ℕ) : ℕ → ℕ
  | 0 => 0
  | k + 1 => triggerTime echoWait k + (2 + 10) + echoWait k + 30000

/-- Time at which channel `k`'s measurement (echo or timeout) has completed. -/
def measureEnd (echoWait : ℕ → ℕ) (k : ℕ) : ℕ :=
  triggerTime echoWait k + (2 + 10) + echoWait k

/-- Time at which channel `k`'s 30 ms settling delay has elapsed. -/
def settleEnd (echoWait : ℕ → ℕ) (k : ℕ) : ℕ :=
  measureEnd echoWait k + 30000

/-! ### Orientation estimator (`readMPU6050` / `readQMC5883L`)

`atan2(y, x)` is modelled as `Complex.arg ⟨x, y⟩`, which agrees with the C
library function on all inputs (including `atan2(0, 0) = 0 = Complex.arg 0`).
`PI` is `Real.pi`. -/

/-- `readQMC5883L`: `heading = atan2(magY, magX) * 180 / PI`, then
`if (heading < 0) heading += 360`. -/
noncomputable def headingFromMag (magX magY : ℝ) : ℝ :=
  let heading := Complex.arg ⟨magX, magY⟩ * 180 / Real.pi
  if heading < 0 then heading + 360 else heading

/-- `readMPU6050`: `roll = atan2(accelY, accelZ) * 180 / PI`. -/
noncomputable def rollFromAccel (accelY accelZ : ℝ) : ℝ :=
  Complex.arg ⟨accelZ, accelY⟩ * 180 / Real.pi

/-- `readMPU6050`:
`pitch = atan2(-accelX, sqrt(accelY*accelY + accelZ*accelZ)) * 180 / PI`. -/
noncomputable def pitchFromAccel (accelX accelY accelZ : ℝ) : ℝ :=
  Complex.arg ⟨Real.sqrt (accelY * accelY + accelZ * accelZ), -accelX⟩ * 180 / Real.pi

/-! ### Helper lemmas: the loop's accumulators versus the valid-sample list -/

lemma min_if_view (m d : ℚ) : (if d < m then d else m) = min m d := by
  rcases le_or_lt m d with h | h
  · simp [not_lt.mpr h, min_eq_left h]
  · simp [h, min_eq_right h.le]

lemma max_if_view (m d : ℚ) : (if d > m then d else m) = max m d := by
  rcases le_or_lt d m with h | h
  · simp [not_lt.mpr h, max_eq_left h]
  · simp [h, max_eq_right h.le]

lemma foldl_stepStats_eq_filter :
    ∀ (l : List ℚ) (s : TerrainStats),
      l.foldl stepStats s = (l.filter (fun d => 0 < d)).foldl statUpdate s := by
  intro l
  induction l with
  | nil => intro s; rfl
  | cons a t ih =>
    intro s
    by_cases ha : 0 < a
    · simp [List.filter_cons, ha, stepStats, ih]
    · simp [List.filter_cons, ha, stepStats, ih]

lemma foldl_statUpdate_validCount :
    ∀ (v : List ℚ) (s : TerrainStats),
      (v.foldl statUpdate s).validCount = s.validCount + v.length := by
  intro v
  induction v with
  | nil => intro s; simp
  | cons a t ih =>
    intro s
    simp [List.foldl_cons, ih, statUpdate]
    omega

lemma foldl_statUpdate_sum :
    ∀ (v : List ℚ) (s : TerrainStats),
      (v.foldl statUpdate s).sum = s.sum + v.sum := by
  intro v
  induction v with
  | nil => intro s; simp
  | cons a t ih =>
    intro s
    simp [List.foldl_cons, ih, statUpdate]
    ring

lemma foldl_statUpdate_sumSq :
    ∀ (v : List ℚ) (s : TerrainStats),
      (v.foldl statUpdate s).sumSq = s.sumSq + (v.map (fun d => d * d)).sum := by
  intro v
  induction v with
  | nil => intro s; simp
  | cons a t ih =>
    intro s
    simp [List.foldl_cons, ih, statUpdate]
    ring

lemma foldl_statUpdate_minDist :
    ∀ (v : List ℚ) (s : TerrainStats),
      (v.foldl statUpdate s).minDist = v.foldl min s.minDist := by
  intro v
  induction v with
  | nil => intro s; rfl
  | cons a t ih =>
    intro s
    simp [List.foldl_cons, ih, statUpdate, min_if_view]

lemma foldl_statUpdate_maxDist :
    ∀ (v : List ℚ) (s : TerrainStats),
      (v.foldl statUpdate s).maxDist = v.foldl max s.maxDist := by
  intro v
  induction v with
  | nil => intro s; rfl
  | cons a t ih =>
    intro s
    simp [List.foldl_cons, ih, statUpdate, max_if_view]

lemma sweepStats_validCount (samples : List ℚ) :
    (sweepStats samples).validCount = (validSamples samples).length := by
  simp [sweepStats, validSamples, foldl_stepStats_eq_filter, foldl_statUpdate_validCount,
    initialStats]

lemma sweepStats_sum (samples : List ℚ) :
    (sweepStats samples).sum = (validSamples samples).sum := by
  simp [sweepStats, validSamples, foldl_stepStats_eq_filter, foldl_statUpdate_sum,
    initialStats]

lemma sweepStats_sumSq (samples : List ℚ) :
    (sweepStats samples).sumSq = ((validSamples samples).map (fun d => d * d)).sum := by
  simp [sweepStats, validSamples, foldl_stepStats_eq_filter, foldl_statUpdate_sumSq,
    initialStats]

lemma sweepStats_minDist (samples : List ℚ) :
    (sweepStats samples).minDist = (validSamples samples).foldl min 9999 := by
  simp [sweepStats, validSamples, foldl_stepStats_eq_filter, foldl_statUpdate_minDist,
    initialStats]

lemma sweepStats_maxDist (samples : List ℚ) :
    (sweepStats samples).maxDist = (validSamples samples).foldl max 0 := by
  simp [sweepStats, validSamples, foldl_stepStats_eq_filter, foldl_statUpdate_maxDist,
    initialStats]

/-! ### Helper lemmas: `foldl min` / `foldl max` -/

lemma foldl_min_le_init : ∀ (t : List ℚ) (a : ℚ), t.foldl min a ≤ a := by
  intro t
  induction t with
  | nil => intro a; simp
  | cons b t ih => intro a; exact le_trans (ih (min a b)) (min_le_left a b)

lemma foldl_min_le_mem : ∀ (t : List ℚ) (a d : ℚ), d ∈ t → t.foldl min a ≤ d := by
  intro t
  induction t with
  | nil => intro a d hd; cases hd
  | cons b t ih =>
    intro a d hd
    rcases List.mem_cons.mp hd with rfl | hd
    · exact le_trans (foldl_min_le_init t (min a d)) (min_le_right a d)
    · exact ih (min a b) d hd

lemma foldl_min_mem_or : ∀ (t : List ℚ) (a : ℚ), t.foldl min a = a ∨ t.foldl min a ∈ t := by
  intro t
  induction t with
  | nil => intro a; left; rfl
  | cons b t ih =>
    intro a
    rcases ih (min a b) with h | h
    · rcases min_choice a b with hm | hm
      · left; simpa [hm] using h
      · right; rw [List.foldl_cons, h, hm]; exact List.mem_cons_self b t
    · right; exact List.mem_cons_of_mem b h

lemma foldl_max_init_le : ∀ (t : List ℚ) (a : ℚ), a ≤ t.foldl max a := by
  intro t
  induction t with
  | nil => intro a; simp
  | cons b t ih => intro a; exact le_trans (le_max_left a b) (ih (max a b))

lemma foldl_max_mem_le : ∀ (t : List ℚ) (a d : ℚ), d ∈ t → d ≤ t.foldl max a := by
  intro t
  induction t with
  | nil => intro a d hd; cases hd
  | cons b t ih =>
    intro a d hd
    rcases List.mem_cons.mp hd with rfl | hd
    · exact le_trans (le_max_right a d) (foldl_max_init_le t (max a d))
    · exact ih (max a b) d hd

lemma foldl_max_mem_or : ∀ (t : List ℚ) (a : ℚ), t.foldl max a = a ∨ t.foldl max a ∈ t := by
  intro t
  induction t with
  | nil => intro a; left; rfl
  | cons b t ih =>
    intro a
    rcases ih (max a b) with h | h
    · rcases max_choice a b with hm | hm
      · left; simpa [hm] using h
      · right; rw [List.foldl_cons, h, hm]; exact List.mem_cons_self b t
    · right; exact List.mem_cons_of_mem b h

/-! ### Helper lemmas: the spec-side statistics -/

lemma validSamples_pos (samples : List ℚ) :
    ∀ d ∈ validSamples samples, 0 < d := by
  intro d hd
  have := List.mem_filter.mp hd
  simpa using this.2

lemma validSamples_mem (samples : List ℚ) :
    ∀ d ∈ validSamples samples, d ∈ samples := by
  intro d hd
  exact (List.mem_filter.mp hd).1

lemma mem_validSamples_of (samples : List ℚ) (d : ℚ) (hd : d ∈ samples) (hp : 0 < d) :
    d ∈ validSamples samples := by
  exact List.mem_filter.mpr ⟨hd, by simpa using hp⟩

lemma length_valid_add_invalid (l : List ℚ) :
    (validSamples l).length + specInvalidCount l = l.length := by
  induction l with
  | nil => rfl
  | cons a t ih =>
    by_cases ha : 0 < a
    · simp only [validSamples, specInvalidCount, List.filter_cons] at ih ⊢
      simp [ha, not_le.mpr ha]
      omega
    · simp only [validSamples, specInvalidCount, List.filter_cons] at ih ⊢
      simp [ha, not_lt.mp ha]
      omega

lemma sweepStats_minDist_eq_spec (samples : List ℚ)
    (hne : validSamples samples ≠ [])
    (hbound : ∀ d ∈ validSamples samples, d < 9999) :
    (sweepStats samples).minDist = specMinDist samples := by
  obtain ⟨h, t, hv⟩ := List.exists_cons_of_ne_nil hne
  have hh : h ≤ 9999 := by
    have := hbound h (by rw [hv]; exact List.mem_cons_self h t)
    linarith
  rw [sweepStats_minDist, specMinDist, hv, List.foldl_cons, min_eq_right hh]

lemma sweepStats_maxDist_eq_spec (samples : List ℚ)
    (hne : validSamples samples ≠ []) :
    (sweepStats samples).maxDist = specMaxDist samples := by
  obtain ⟨h, t, hv⟩ := List.exists_cons_of_ne_nil hne
  have hh : (0 : ℚ) ≤ h := by
    have := validSamples_pos samples h (by rw [hv]; exact List.mem_cons_self h t)
    linarith
  rw [sweepStats_maxDist, specMaxDist, hv, List.foldl_cons, max_eq_right hh]

/-! ### The classifiers agree with the spec's five-rule chain on real sweeps -/

lemma validSamples_lt_9999 (samples : List ℚ)
    (hval : ∀ d ∈ samples, d = -1 ∨ (0 < d ∧ d < 9999)) :
    ∀ d ∈ validSamples samples, d < 9999 := by
  intro d hd
  have hpos := validSamples_pos samples d hd
  rcases hval d (validSamples_mem samples d hd) with h | h
  · rw [h] at hpos; norm_num at hpos
  · exact h.2

lemma classify_scanner_eq_spec (samples : List ℚ)
    (hlen : samples.length = 5)
    (hval : ∀ d ∈ samples, d = -1 ∨ (0 < d ∧ d < 9999)) :
    classify_scanner samples = specClassify samples := by
  have hsplit := length_valid_add_invalid samples
  have hvc := sweepStats_validCount samples
  by_cases hc : (validSamples samples).length ≤ 2
  · simp only [classify_scanner, analyzeTerrain, specClassify, hvc, NUM_SENSORS_scanner]
    split_ifs <;> first | rfl | omega
  · have hne : validSamples samples ≠ [] := by
      intro hnil
      rw [hnil] at hc
      simp at hc
    have hmin := sweepStats_minDist_eq_spec samples hne (validSamples_lt_9999 samples hval)
    have hmax := sweepStats_maxDist_eq_spec samples hne
    have hvpos : 0 < (validSamples samples).length := by omega
    have hminS : terrainMin_scanner samples = specMinDist samples := by
      rw [terrainMin_scanner, if_pos (by rw [hvc]; exact hvpos), hmin]
    have hmaxS : terrainMax_scanner samples = specMaxDist samples := by
      rw [terrainMax_scanner, if_pos (by rw [hvc]; exact hvpos), hmax]
    simp only [classify_scanner, analyzeTerrain, specClassify, hvc, hminS, hmaxS,
      NUM_SENSORS_scanner]
    split_ifs <;> first | rfl | omega

lemma filter_neg_length_eq (samples : List ℚ)
    (hval : ∀ d ∈ samples, d = -1 ∨ (0 < d ∧ d < 9999)) :
    (samples.filter (fun d => d < 0)).length = specInvalidCount samples := by
  rw [specInvalidCount]
  congr 1
  apply List.filter_congr
  intro d hd
  apply decide_eq_decide.mpr
  rcases hval d hd with rfl | h
  · constructor <;> intro <;> norm_num
  · exact iff_of_false (by linarith [h.1]) (by linarith [h.1])

lemma classify_mega_eq_spec (samples : List ℚ)
    (hlen : samples.length = 6)
    (hval : ∀ d ∈ samples, d = -1 ∨ (0 < d ∧ d < 9999)) :
    classify_mega samples = specClassify samples := by
  have hsplit := length_valid_add_invalid samples
  have hfilter := filter_neg_length_eq samples hval
  by_cases hc : (validSamples samples).length ≤ 3
  · simp only [classify_mega, analyzeTerrain_mega, specClassify, hfilter]
    split_ifs <;> first | rfl | omega
  · have hne : validSamples samples ≠ [] := by
      intro hnil
      rw [hnil] at hc
      simp at hc
    have hmin := sweepStats_minDist_eq_spec samples hne (validSamples_lt_9999 samples hval)
    have hmax := sweepStats_maxDist_eq_spec samples hne
    simp only [classify_mega, analyzeTerrain_mega, specClassify, hfilter, hmin, hmax]
    split_ifs <;> first | rfl | omega

/-- `specMinDist` is characterized as the unique lower bound among the valid
samples. -/
lemma specMinDist_eq (samples : List ℚ) (a : ℚ)
    (ha : a ∈ validSamples samples)
    (hlb : ∀ d ∈ validSamples samples, a ≤ d) :
    specMinDist samples = a := by
  have hne : validSamples samples ≠ [] := List.ne_nil_of_mem ha
  obtain ⟨h, t, hv⟩ := List.exists_cons_of_ne_nil hne
  rw [hv] at ha
  rw [specMinDist, hv]
  show t.foldl min h = a
  apply le_antisymm
  · rcases List.mem_cons.mp ha with rfl | hat
    · exact foldl_min_le_init t a
    · exact foldl_min_le_mem t h a hat
  · rcases foldl_min_mem_or t h with heq | hmem
    · rw [heq]; exact hlb h (by rw [hv]; exact List.mem_cons_self h t)
    · exact hlb _ (by rw [hv]; exact List.mem_cons_of_mem h hmem)

/-- `specMaxDist` is characterized as the unique upper bound among the valid
samples. -/
lemma specMaxDist_eq (samples : List ℚ) (a : ℚ)
    (ha : a ∈ validSamples samples)
    (hub : ∀ d ∈ validSamples samples, d ≤ a) :
    specMaxDist samples = a := by
  have hne : validSamples samples ≠ [] := List.ne_nil_of_mem ha
  obtain ⟨h, t, hv⟩ := List.exists_cons_of_ne_nil hne
  rw [hv] at ha
  rw [specMaxDist, hv]
  show t.foldl max h = a
  apply le_antisymm
  · rcases foldl_max_mem_or t h with heq | hmem
    · rw [heq]; exact hub h (by rw [hv]; exact List.mem_cons_self h t)
    · exact hub _ (by rw [hv]; exact List.mem_cons_of_mem h hmem)
  · rcases List.mem_cons.mp ha with rfl | hat
    · exact foldl_max_init_le t a
    · exact foldl_max_mem_le t h a hat

/-- A sweep with no valid sample leaves the loop accumulators untouched. -/
lemma sweepStats_of_no_valid (samples : List ℚ)
    (h : (sweepStats samples).validCount = 0) :
    sweepStats samples = initialStats := by
  have hlen : (validSamples samples).length = 0 := by
    rw [← sweepStats_validCount]; exact h
  have hnil : validSamples samples = [] := List.length_eq_zero.mp hlen
  rw [sweepStats, foldl_stepStats_eq_filter]
  have : samples.filter (fun d => 0 < d) = [] := hnil
  rw [this]
  rfl

/-- Every value `readSingleUltrasonic` can return is the sentinel `-1` or
strictly positive. -/
lemma readSingleUltrasonic_shape (dur : ℕ) :
    readSingleUltrasonic dur = -1 ∨ 0 < readSingleUltrasonic dur := by
  rcases Nat.eq_zero_or_pos dur with rfl | hpos
  · left; simp [readSingleUltrasonic]
  · right
    rw [readSingleUltrasonic, if_neg (Nat.pos_iff_ne_zero.mp hpos)]
    have h1 : (1 : ℚ) ≤ (dur : ℚ) := by exact_mod_cast hpos
    nlinarith

/-- Any sample the driver can produce from a `pulseIn` duration within the
30 ms timeout is the sentinel `-1` or a strictly positive distance below the
`minDist` seed `9999`. -/
lemma readSingleUltrasonic_valid (dur : ℕ) (hdur : dur ≤ 30000) :
    readSingleUltrasonic dur = -1 ∨
      (0 < readSingleUltrasonic dur ∧ readSingleUltrasonic dur < 9999) := by
  rcases Nat.eq_zero_or_pos dur with rfl | hpos
  · left; simp [readSingleUltrasonic]
  · right
    rw [readSingleUltrasonic, if_neg (Nat.pos_iff_ne_zero.mp hpos)]
    have h1 : (1 : ℚ) ≤ (dur : ℚ) := by exact_mod_cast hpos
    have h2 : (dur : ℚ) ≤ 30000 := by exact_mod_cast hdur
    constructor
    · nlinarith
    · nlinarith

/-! ## Claim theorems -/

/-- **C3**: For every completed sweep, if at most one sample is valid the
reported terrain variance is `0` (no division performed in the model's exact
arithmetic), and if more than one sample is valid the variance equals
`(sum of squares of valid samples) / validCount - (mean of valid samples)^2`,
the population (biased) formula. -/
theorem spec_C3 (samples : List ℚ) :
    ((validSamples samples).length ≤ 1 → terrainVariance samples = 0) ∧
    (1 < (validSamples samples).length →
      terrainVariance samples =
        ((validSamples samples).map (fun d => d * d)).sum /
            ((validSamples samples).length : ℚ) -
          ((validSamples samples).sum / ((validSamples samples).length : ℚ)) *
            ((validSamples samples).sum / ((validSamples samples).length : ℚ))) := by
  constructor
  · intro h
    simp only [terrainVariance, sweepStats_validCount, sweepStats_sum, sweepStats_sumSq]
    rw [if_neg (by omega)]
  · intro h
    simp only [terrainVariance, sweepStats_validCount, sweepStats_sum, sweepStats_sumSq]
    rw [if_pos (by omega)]

/-- Witness for C3 at concrete sweeps: `[5, -1, -1]` has one valid sample and
variance `0`; `[10, 20, -1]` has two valid samples and variance given by the
population formula. -/
theorem spec_C3_witness :
    terrainVariance [(5 : ℚ), -1, -1] = 0 ∧
    terrainVariance [(10 : ℚ), 20, -1] =
      ((validSamples [(10 : ℚ), 20, -1]).map (fun d => d * d)).sum /
          ((validSamples [(10 : ℚ), 20, -1]).length : ℚ) -
        ((validSamples [(10 : ℚ), 20, -1]).sum /
            ((validSamples [(10 : ℚ), 20, -1]).length : ℚ)) *
          ((validSamples [(10 : ℚ), 20, -1]).sum /
            ((validSamples [(10 : ℚ), 20, -1]).length : ℚ)) :=
  ⟨(spec_C3 [(5 : ℚ), -1, -1]).1 (by norm_num [validSamples, List.filter]),
   (spec_C3 [(10 : ℚ), 20, -1]).2 (by norm_num [validSamples, List.filter])⟩

/-- **C4**: A single-channel measurement returns the sentinel `-1` exactly when
the echo wait timed out (`pulseIn` duration `0`), and otherwise converts the
duration to `duration * 0.0343 / 2.0` centimeters; a sentinel sample is
excluded from the sweep's statistics (sum, sum of squares, min, max, valid
count) and hence from the variance. -/
theorem spec_C4 :
    (∀ dur : ℕ,
      (dur = 0 → readSingleUltrasonic dur = -1) ∧
      (dur ≠ 0 → readSingleUltrasonic dur = (dur : ℚ) * (343 / 10000) / 2)) ∧
    (∀ xs ys : List ℚ,
      sweepStats (xs ++ -1 :: ys) = sweepStats (xs ++ ys) ∧
      terrainVariance (xs ++ -1 :: ys) = terrainVariance (xs ++ ys)) := by
  constructor
  · intro dur
    constructor
    · intro h
      simp [readSingleUltrasonic, h]
    · intro h
      rw [readSingleUltrasonic, if_neg h]
  · intro xs ys
    have hst : sweepStats (xs ++ -1 :: ys) = sweepStats (xs ++ ys) := by
      rw [sweepStats, sweepStats, List.foldl_append, List.foldl_append, List.foldl_cons]
      have : stepStats (xs.foldl stepStats initialStats) (-1) =
          xs.foldl stepStats initialStats := by
        rw [stepStats, if_neg (by norm_num)]
      rw [this]
    exact ⟨hst, by simp only [terrainVariance, hst]⟩

/-- Witness for C4: timeout gives the sentinel, a 20,000 µs echo gives
`20000 * 0.0343 / 2` cm, and inserting a sentinel into a sweep leaves the
statistics unchanged. -/
theorem spec_C4_witness :
    readSingleUltrasonic 0 = -1 ∧
    readSingleUltrasonic 20000 = (20000 : ℚ) * (343 / 10000) / 2 ∧
    sweepStats [(5 : ℚ), -1] = sweepStats [(5 : ℚ)] :=
  ⟨(spec_C4.1 0).1 rfl, (spec_C4.1 20000).2 (by norm_num), (spec_C4.2 [(5 : ℚ)] []).1⟩

/-- **C7**: Both classifiers are total: every sweep (any combination of valid
and invalid samples) is assigned exactly one of the five classifications,
never leaving the status unset. -/
theorem spec_C7 (samples : List ℚ) :
    (classify_scanner samples = FLAT_SAFE ∨ classify_scanner samples = UNEVEN ∨
      classify_scanner samples = HAZARD ∨ classify_scanner samples = NO_GROUND ∨
      classify_scanner samples = NO_DATA) ∧
    (classify_mega samples = FLAT_SAFE ∨ classify_mega samples = UNEVEN ∨
      classify_mega samples = HAZARD ∨ classify_mega samples = NO_GROUND ∨
      classify_mega samples = NO_DATA) := by
  constructor
  · simp only [classify_scanner, analyzeTerrain]
    split_ifs <;> simp
  · simp only [classify_mega, analyzeTerrain_mega]
    split_ifs <;> simp

/-- **C8**: Within a sweep the channels are measured strictly sequentially:
channel `k`'s trigger precedes its measurement completion, and channel
`k + 1`'s trigger pulse is issued only after channel `k`'s measurement has
completed and the fixed 30 ms (30,000 µs) settling delay has elapsed. -/
theorem spec_C8 (echoWait : ℕ → ℕ) (k : ℕ) :
    triggerTime echoWait k < measureEnd echoWait k ∧
    measureEnd echoWait k + 30000 ≤ triggerTime echoWait (k + 1) ∧
    settleEnd echoWait k ≤ triggerTime echoWait (k + 1) ∧
    triggerTime echoWait k < triggerTime echoWait (k + 1) := by
  simp only [measureEnd, settleEnd, triggerTime]
  omega

/-- **C9**: `NO_DATA` is unreachable in both variants: every driver sample is
`-1` or strictly positive; the scanner classifier never returns `NO_DATA` on
any sweep (zero valid samples forces `outOfRange = 5 ≥ 3`, so `NO_GROUND`
fires first); the mega classifier has no `NO_DATA` outcome at all; and a
producible mega sweep with zero valid samples is classified `NO_GROUND`. -/
theorem spec_C9 :
    (∀ dur : ℕ, readSingleUltrasonic dur = -1 ∨ 0 < readSingleUltrasonic dur) ∧
    (∀ samples : List ℚ, classify_scanner samples ≠ NO_DATA) ∧
    (∀ samples : List ℚ, classify_mega samples ≠ NO_DATA) ∧
    (∀ samples : List ℚ, (sweepStats samples).validCount = 0 →
      classify_scanner samples = NO_GROUND) ∧
    (∀ durations : List ℕ, durations.length = 6 →
      (sweepStats (sweepSamples durations)).validCount = 0 →
      classify_mega (sweepSamples durations) = NO_GROUND) := by
  refine ⟨readSingleUltrasonic_shape, ?_, ?_, ?_, ?_⟩
  · intro samples
    simp only [classify_scanner, analyzeTerrain, NUM_SENSORS_scanner]
    split_ifs <;> first | decide | (exfalso; omega)
  · intro samples
    simp only [classify_mega, analyzeTerrain_mega]
    split_ifs <;> decide
  · intro samples hvc
    simp only [classify_scanner, analyzeTerrain, NUM_SENSORS_scanner, hvc]
    split_ifs <;> first | rfl | (exfalso; omega)
  · intro durations hlen hvc
    have hall : ∀ d ∈ sweepSamples durations, d < 0 := by
      intro d hd
      have hnil : validSamples (sweepSamples durations) = [] :=
        List.length_eq_zero.mp (by rw [← sweepStats_validCount]; exact hvc)
      obtain ⟨t, ht, rfl⟩ := List.mem_map.mp hd
      rcases readSingleUltrasonic_shape t with h | h
      · rw [h]; norm_num
      · exfalso
        have hmem := mem_validSamples_of (sweepSamples durations) _ hd h
        rw [hnil] at hmem
        cases hmem
    have hfe : (sweepSamples durations).filter (fun d => d < 0) = sweepSamples durations := by
      rw [List.filter_eq_self]
      intro d hd
      simpa using hall d hd
    have hlen6 : (sweepSamples durations).length = 6 := by
      simp [sweepSamples, hlen]
    simp only [classify_mega, analyzeTerrain_mega, hfe, hlen6]
    rw [if_pos (by norm_num)]

/-- Witness for C9 at concrete sweeps: the all-sentinel scanner sweep and the
all-timeout mega sweep are both classified `NO_GROUND`. -/
theorem spec_C9_witness :
    classify_scanner [(-1 : ℚ), -1, -1, -1, -1] = NO_GROUND ∧
    classify_mega (sweepSamples [0, 0, 0, 0, 0, 0]) = NO_GROUND :=
  ⟨spec_C9.2.2.2.1 [(-1 : ℚ), -1, -1, -1, -1]
      (by norm_num [sweepStats, stepStats, statUpdate, initialStats]),
   spec_C9.2.2.2.2 [0, 0, 0, 0, 0, 0] rfl
      (by norm_num [sweepStats, sweepSamples, readSingleUltrasonic, stepStats,
        statUpdate, initialStats])⟩

/-- **C10**: For a sweep with zero valid samples the mega variant stores the
untouched initial accumulators, reporting `terrainMin = 9999` and
`terrainMax = 0` (so the derived range is negative), while the scanner
variant reports `terrainMin = terrainMax = 0`. -/
theorem spec_C10 (s6 s5 : List ℚ)
    (h6 : (sweepStats s6).validCount = 0) (h5 : (sweepStats s5).validCount = 0) :
    (sweepStats s6).minDist = 9999 ∧ (sweepStats s6).maxDist = 0 ∧
    (sweepStats s6).maxDist - (sweepStats s6).minDist < 0 ∧
    terrainMin_scanner s5 = 0 ∧ terrainMax_scanner s5 = 0 := by
  rw [sweepStats_of_no_valid s6 h6]
  refine ⟨rfl, rfl, by norm_num [initialStats], ?_, ?_⟩
  · rw [terrainMin_scanner, if_neg (by omega)]
  · rw [terrainMax_scanner, if_neg (by omega)]

/-- Witness for C10: the all-sentinel sweeps. -/
theorem spec_C10_witness :
    (sweepStats [(-1 : ℚ), -1, -1, -1, -1, -1]).minDist = 9999 ∧
    (sweepStats [(-1 : ℚ), -1, -1, -1, -1, -1]).maxDist = 0 ∧
    (sweepStats [(-1 : ℚ), -1, -1, -1, -1, -1]).maxDist -
      (sweepStats [(-1 : ℚ), -1, -1, -1, -1, -1]).minDist < 0 ∧
    terrainMin_scanner [(-1 : ℚ), -1, -1, -1, -1] = 0 ∧
    terrainMax_scanner [(-1 : ℚ), -1, -1, -1, -1] = 0 :=
  spec_C10 [(-1 : ℚ), -1, -1, -1, -1, -1] [(-1 : ℚ), -1, -1, -1, -1]
    (by norm_num [sweepStats, stepStats, statUpdate, initialStats])
    (by norm_num [sweepStats, stepStats, statUpdate, initialStats])

/-- **C1**: For every completed sweep — the driver's samples for `pulseIn`
durations within the 30,000 µs timeout — both variants' classifiers return
exactly the result of the spec's five-rule chain, evaluated in its stated
priority order (first match wins). -/
theorem spec_C1 (d5 d6 : List ℕ)
    (h5 : d5.length = 5) (h6 : d6.length = 6)
    (hb5 : ∀ t ∈ d5, t ≤ 30000) (hb6 : ∀ t ∈ d6, t ≤ 30000) :
    classify_scanner (sweepSamples d5) = specClassify (sweepSamples d5) ∧
    classify_mega (sweepSamples d6) = specClassify (sweepSamples d6) := by
  constructor
  · apply classify_scanner_eq_spec
    · simp [sweepSamples, h5]
    · intro d hd
      obtain ⟨t, ht, rfl⟩ := List.mem_map.mp hd
      exact readSingleUltrasonic_valid t (hb5 t ht)
  · apply classify_mega_eq_spec
    · simp [sweepSamples, h6]
    · intro d hd
      obtain ⟨t, ht, rfl⟩ := List.mem_map.mp hd
      exact readSingleUltrasonic_valid t (hb6 t ht)

/-- Witness for C1 at concrete duration vectors (including timeouts). -/
theorem spec_C1_witness :
    classify_scanner (sweepSamples [1000, 2000, 0, 30000, 500]) =
      specClassify (sweepSamples [1000, 2000, 0, 30000, 500]) ∧
    classify_mega (sweepSamples [0, 0, 1000, 1000, 2000, 2500]) =
      specClassify (sweepSamples [0, 0, 1000, 1000, 2000, 2500]) :=
  spec_C1 [1000, 2000, 0, 30000, 500] [0, 0, 1000, 1000, 2000, 2500] rfl rfl
    (by decide) (by decide)

/-- **C2** (counterexample): a sweep whose valid samples are exactly
`{10, 70}` but with only two valid channels is classified `NO_GROUND` (the
`invalidCount ≥ 3` rule fires first), not `HAZARD`, in both variants — so the
classification is not independent of the valid count. -/
theorem spec_C2_counterexample :
    validSamples [(10 : ℚ), 70, -1, -1, -1] = [10, 70] ∧
    classify_scanner [(10 : ℚ), 70, -1, -1, -1] = NO_GROUND ∧
    classify_scanner [(10 : ℚ), 70, -1, -1, -1] ≠ HAZARD ∧
    validSamples [(10 : ℚ), 70, -1, -1, -1, -1] = [10, 70] ∧
    classify_mega [(10 : ℚ), 70, -1, -1, -1, -1] = NO_GROUND ∧
    classify_mega [(10 : ℚ), 70, -1, -1, -1, -1] ≠ HAZARD := by
  have hs : classify_scanner [(10 : ℚ), 70, -1, -1, -1] = NO_GROUND := by
    norm_num [classify_scanner, analyzeTerrain, terrainMin_scanner, terrainMax_scanner,
      sweepStats, stepStats, statUpdate, initialStats, NUM_SENSORS_scanner]
  have hm : classify_mega [(10 : ℚ), 70, -1, -1, -1, -1] = NO_GROUND := by
    norm_num [classify_mega, analyzeTerrain_mega, sweepStats, stepStats, statUpdate,
      initialStats, List.filter]
  refine ⟨?_, hs, ?_, ?_, hm, ?_⟩
  · norm_num [validSamples, List.filter]
  · rw [hs]; decide
  · norm_num [validSamples, List.filter]
  · rw [hm]; decide

/-- **C2** (amended): for every sweep whose valid samples are exactly
`{10, 70}` **and whose invalid count is at most 2** (so the `NO_GROUND` rule
does not fire), the classifier returns `HAZARD` regardless of the exact
number of valid samples, in both variants. -/
theorem spec_C2_amended (s5 s6 : List ℚ)
    (hl5 : s5.length = 5) (hl6 : s6.length = 6)
    (hm5 : ∀ d ∈ s5, d = -1 ∨ d = 10 ∨ d = 70)
    (hm6 : ∀ d ∈ s6, d = -1 ∨ d = 10 ∨ d = 70)
    (h10a : (10 : ℚ) ∈ s5) (h70a : (70 : ℚ) ∈ s5)
    (h10b : (10 : ℚ) ∈ s6) (h70b : (70 : ℚ) ∈ s6)
    (hinv5 : specInvalidCount s5 ≤ 2) (hinv6 : specInvalidCount s6 ≤ 2) :
    classify_scanner s5 = HAZARD ∧ classify_mega s6 = HAZARD := by
  have hval5 : ∀ d ∈ s5, d = -1 ∨ (0 < d ∧ d < 9999) := by
    intro d hd
    rcases hm5 d hd with rfl | rfl | rfl
    · left; rfl
    · right; norm_num
    · right; norm_num
  have hval6 : ∀ d ∈ s6, d = -1 ∨ (0 < d ∧ d < 9999) := by
    intro d hd
    rcases hm6 d hd with rfl | rfl | rfl
    · left; rfl
    · right; norm_num
    · right; norm_num
  have hspec5 : specClassify s5 = HAZARD := by
    have h10v : (10 : ℚ) ∈ validSamples s5 := mem_validSamples_of s5 10 h10a (by norm_num)
    have h70v : (70 : ℚ) ∈ validSamples s5 := mem_validSamples_of s5 70 h70a (by norm_num)
    have hminv : specMinDist s5 = 10 := by
      apply specMinDist_eq s5 10 h10v
      intro d hd
      have hp := validSamples_pos s5 d hd
      rcases hm5 d (validSamples_mem s5 d hd) with rfl | rfl | rfl
      · norm_num at hp
      · norm_num
      · norm_num
    have hmaxv : specMaxDist s5 = 70 := by
      apply specMaxDist_eq s5 70 h70v
      intro d hd
      have hp := validSamples_pos s5 d hd
      rcases hm5 d (validSamples_mem s5 d hd) with rfl | rfl | rfl
      · norm_num at hp
      · norm_num
      · norm_num
    simp only [specClassify, hminv, hmaxv]
    rw [if_neg (by omega), if_pos (by norm_num)]
  have hspec6 : specClassify s6 = HAZARD := by
    have h10v : (10 : ℚ) ∈ validSamples s6 := mem_validSamples_of s6 10 h10b (by norm_num)
    have h70v : (70 : ℚ) ∈ validSamples s6 := mem_validSamples_of s6 70 h70b (by norm_num)
    have hminv : specMinDist s6 = 10 := by
      apply specMinDist_eq s6 10 h10v
      intro d hd
      have hp := validSamples_pos s6 d hd
      rcases hm6 d (validSamples_mem s6 d hd) with rfl | rfl | rfl
      · norm_num at hp
      · norm_num
      · norm_num
    have hmaxv : specMaxDist s6 = 70 := by
      apply specMaxDist_eq s6 70 h70v
      intro d hd
      have hp := validSamples_pos s6 d hd
      rcases hm6 d (validSamples_mem s6 d hd) with rfl | rfl | rfl
      · norm_num at hp
      · norm_num
      · norm_num
    simp only [specClassify, hminv, hmaxv]
    rw [if_neg (by omega), if_pos (by norm_num)]
  exact ⟨(classify_scanner_eq_spec s5 hl5 hval5).trans hspec5,
    (classify_mega_eq_spec s6 hl6 hval6).trans hspec6⟩

/-- Witness for the amended C2: three and four valid samples drawn from
`{10, 70}` with two timeouts give `HAZARD` in the respective variants. -/
theorem spec_C2_amended_witness :
    classify_scanner [(10 : ℚ), 70, 10, -1, -1] = HAZARD ∧
    classify_mega [(10 : ℚ), 70, 10, 70, -1, -1] = HAZARD :=
  spec_C2_amended [(10 : ℚ), 70, 10, -1, -1] [(10 : ℚ), 70, 10, 70, -1, -1]
    rfl rfl
    (by intro d hd; fin_cases hd <;> norm_num)
    (by intro d hd; fin_cases hd <;> norm_num)
    (by norm_num) (by norm_num) (by norm_num) (by norm_num)
    (by norm_num [specInvalidCount, List.filter])
    (by norm_num [specInvalidCount, List.filter])

/-- **C5**: The computed heading is `atan2(magY, magX)` in degrees with 360
added when negative, hence always in `[0, 360)`; the four cardinal raw
samples give 0°, 90°, 180° and 270°. -/
theorem spec_C5 :
    (∀ mx my : ℝ, 0 ≤ headingFromMag mx my ∧ headingFromMag mx my < 360) ∧
    headingFromMag 1 0 = 0 ∧ headingFromMag 0 1 = 90 ∧
    headingFromMag (-1) 0 = 180 ∧ headingFromMag 0 (-1) = 270 := by
  have hpi : (0 : ℝ) < Real.pi := Real.pi_pos
  refine ⟨?_, ?_, ?_, ?_, ?_⟩
  · intro mx my
    simp only [headingFromMag]
    have h1 : Complex.arg ⟨mx, my⟩ ≤ Real.pi := Complex.arg_le_pi _
    have h2 : -Real.pi < Complex.arg ⟨mx, my⟩ := Complex.neg_pi_lt_arg _
    have hub : Complex.arg ⟨mx, my⟩ * 180 / Real.pi ≤ 180 := by
      rw [div_le_iff₀ hpi]
      nlinarith
    have hlb : -180 < Complex.arg ⟨mx, my⟩ * 180 / Real.pi := by
      rw [lt_div_iff₀ hpi]
      nlinarith
    by_cases hneg : Complex.arg ⟨mx, my⟩ * 180 / Real.pi < 0
    · rw [if_pos hneg]
      constructor <;> linarith
    · rw [if_neg hneg]
      push_neg at hneg
      constructor <;> linarith
  · have h1 : (⟨1, 0⟩ : ℂ) = 1 := by
      apply Complex.ext <;> simp
    simp only [headingFromMag, h1, Complex.arg_one]
    norm_num
  · have h1 : (⟨0, 1⟩ : ℂ) = Complex.I := by
      apply Complex.ext <;> simp
    have h2 : Real.pi / 2 * 180 / Real.pi = 90 := by
      field_simp
      ring
    simp only [headingFromMag, h1, Complex.arg_I, h2]
    norm_num
  · have h1 : (⟨-1, 0⟩ : ℂ) = -1 := by
      apply Complex.ext <;> simp
    have h2 : Real.pi * 180 / Real.pi = 180 := by
      field_simp
    simp only [headingFromMag, h1, Complex.arg_neg_one, h2]
    norm_num
  · have h1 : (⟨0, -1⟩ : ℂ) = -Complex.I := by
      apply Complex.ext <;> simp
    have h2 : -(Real.pi / 2) * 180 / Real.pi = -90 := by
      field_simp
      ring
    simp only [headingFromMag, h1, Complex.arg_neg_I, h2]
    norm_num

/-- **C6**: The orientation estimator computes `roll = atan2(accelY, accelZ)`
and `pitch = atan2(-accelX, sqrt(accelY² + accelZ²))` in degrees directly
from the raw sample; the pitch always lies in `[-90, 90]`, and the level
sample `(0, 0, 1)` gives `roll = 0` and `pitch = 0`. -/
theorem spec_C6 :
    (∀ ax ay az : ℝ,
      -90 ≤ pitchFromAccel ax ay az ∧ pitchFromAccel ax ay az ≤ 90) ∧
    rollFromAccel 0 1 = 0 ∧ pitchFromAccel 0 0 1 = 0 := by
  have hpi : (0 : ℝ) < Real.pi := Real.pi_pos
  refine ⟨?_, ?_, ?_⟩
  · intro ax ay az
    simp only [pitchFromAccel]
    have hre : (0 : ℝ) ≤ (⟨Real.sqrt (ay * ay + az * az), -ax⟩ : ℂ).re :=
      Real.sqrt_nonneg (ay * ay + az * az)
    have habs := Complex.abs_arg_le_pi_div_two_iff.mpr hre
    rw [abs_le] at habs
    obtain ⟨hl, hr⟩ := habs
    constructor
    · rw [le_div_iff₀ hpi]
      nlinarith
    · rw [div_le_iff₀ hpi]
      nlinarith
  · have h1 : (⟨1, 0⟩ : ℂ) = 1 := by
      apply Complex.ext <;> simp
    simp only [rollFromAccel, h1, Complex.arg_one]
    norm_num
  · have h1 : (⟨Real.sqrt (0 * 0 + 1 * 1), -(0 : ℝ)⟩ : ℂ) = 1 := by
      apply Complex.ext <;> norm_num [Real.sqrt_one]
    simp only [pitchFromAccel, h1, Complex.arg_one]
    norm_num
